import Mathlib

/-!
# RemBG — verification of the batch pipeline and report generator

Shallow embedding of `src/main.py` and `src/visualize.py`.
Numeric samples are modelled as rationals (`ℚ`); Python lists as `List`;
file-system entries as explicit structures; fallible operations as
`Option`/`Except`.  External collaborators (the rembg model, PIL, psutil,
pynvml, mimetypes) are parameters of the embedded functions.
-/

namespace RemBG

/-! ## `percentile` (src/main.py lines 39–49)

```python
def percentile(data, p):
    if not data:
        return 0.0
    xs = sorted(data)
    k = (len(xs) - 1) * (p / 100.0)
    f = math.floor(k)
    c = math.ceil(k)
    if f == c:
        return xs[int(k)]
    return xs[f] + (xs[c] - xs[f]) * (k - f)
```

`int(k)` truncates toward zero; in the `f == c` branch `k` is the integer
`f`, so `int(k) = f` there (also for negative `k`).  Indexing is modelled
with `getD` (default `0`); for `p ∈ [0,100]` all indices are in range. -/
def percentile (data : List ℚ) (p : ℚ) : ℚ :=
  if data.isEmpty then 0
  else
    let xs := data.insertionSort (· ≤ ·)
    let k : ℚ := ((xs.length : ℚ) - 1) * (p / 100)
    let f : ℤ := k.floor
    let c : ℤ := k.ceil
    if f = c then xs.getD f.toNat 0
    else xs.getD f.toNat 0 + (xs.getD c.toNat 0 - xs.getD f.toNat 0) * (k - f)

/-- The spec's pseudocode (spec §4.3, "Percentile algorithm"), applied to an
already-sorted list `xs`: `k = (len(xs)-1)*p/100`, `f = floor(k)`,
`c = ceil(k)`; if `f == c` return `xs[k]`, else
`xs[f] + (xs[c] - xs[f]) * (k - f)`. -/
def interpOnSorted (xs : List ℚ) (p : ℚ) : ℚ :=
  let k : ℚ := ((xs.length : ℚ) - 1) * (p / 100)
  let f : ℤ := k.floor
  let c : ℤ := k.ceil
  if f = c then xs.getD f.toNat 0
  else xs.getD f.toNat 0 + (xs.getD c.toNat 0 - xs.getD f.toNat 0) * (k - f)

/-- Function `Rat.floor` is the mathematical floor (`math.floor`). -/
theorem rat_floor_eq (q : ℚ) : q.floor = ⌊q⌋ :=
  (Rat.floor_def' q).trans Rat.floor_def.symm

/-- Function `Rat.ceil` is the mathematical ceiling (`math.ceil`). -/
theorem rat_ceil_eq (q : ℚ) : q.ceil = ⌈q⌉ := by
  unfold Rat.ceil
  by_cases hd : q.den = 1
  · have h1 : ⌈q⌉ = ⌈(q.num : ℚ)⌉ := by rw [Rat.coe_int_num_of_den_eq_one hd]
    rw [if_pos hd, h1, Int.ceil_intCast]
  · rw [if_neg hd]
    have hfl : q.num / (q.den : ℤ) = ⌊q⌋ := Rat.floor_def.symm
    rw [hfl]
    have hfr : Int.fract q ≠ 0 := by
      intro h0
      have hq' : q = (⌊q⌋ : ℚ) := by
        have h := Int.floor_add_fract q
        rw [h0, add_zero] at h
        exact h.symm
      exact hd (hq' ▸ Rat.den_intCast ⌊q⌋)
    have key : (⌈q⌉ : ℚ) = (⌊q⌋ : ℚ) + 1 := by
      rw [Int.ceil_eq_add_one_sub_fract hfr, Int.fract]
      ring
    exact_mod_cast key.symm

/-- Evaluate `Rat.floor` from a bracketing. -/
theorem rat_floor_eval (q : ℚ) (z : ℤ) (h1 : (z : ℚ) ≤ q) (h2 : q < z + 1) :
    q.floor = z := by
  rw [rat_floor_eq]
  exact Int.floor_eq_iff.mpr ⟨h1, by exact_mod_cast h2⟩

/-- Evaluate `Rat.ceil` from a bracketing. -/
theorem rat_ceil_eval (q : ℚ) (z : ℤ) (h1 : (z : ℚ) - 1 < q) (h2 : q ≤ z) :
    q.ceil = z := by
  rw [rat_ceil_eq]
  exact Int.ceil_eq_iff.mpr ⟨by exact_mod_cast h1, h2⟩

theorem percentile_eq_interp (data : List ℚ) (p : ℚ) (hne : data ≠ []) :
    percentile data p = interpOnSorted (data.insertionSort (· ≤ ·)) p := by
  unfold percentile interpOnSorted
  rw [if_neg (by simpa using hne)]

/-- When `k` is an integer `z`, the interpolation returns `xs[z]`. -/
theorem interpOnSorted_int (xs : List ℚ) (p : ℚ) (z : ℤ)
    (hz : ((xs.length : ℚ) - 1) * (p / 100) = (z : ℚ)) :
    interpOnSorted xs p = xs.getD z.toNat 0 := by
  unfold interpOnSorted
  simp only [hz, rat_floor_eq, rat_ceil_eq, Int.floor_intCast, Int.ceil_intCast,
    eq_self_iff_true, if_true]

/-- When `floor k ≠ ceil k`, the interpolation formula. -/
theorem interpOnSorted_frac (xs : List ℚ) (p k : ℚ) (f c : ℤ)
    (hk : ((xs.length : ℚ) - 1) * (p / 100) = k) (hf : k.floor = f) (hc : k.ceil = c)
    (hfc : f ≠ c) :
    interpOnSorted xs p =
      xs.getD f.toNat 0 + (xs.getD c.toNat 0 - xs.getD f.toNat 0) * (k - f) := by
  unfold interpOnSorted
  simp only [hk, hf, hc, if_neg hfc]

/-- In a `≤`-sorted list the first element is a lower bound. -/
theorem sorted_getD_zero_le (xs : List ℚ) (hs : xs.Sorted (· ≤ ·)) (x : ℚ)
    (hx : x ∈ xs) : xs.getD 0 0 ≤ x := by
  cases xs with
  | nil => cases hx
  | cons a l =>
    rcases List.mem_cons.mp hx with rfl | hl
    · simp [List.getD]
    · simpa [List.getD] using (List.sorted_cons.mp hs).1 x hl

/-- In a `≤`-sorted list the last element is an upper bound. -/
theorem sorted_le_getD_last (xs : List ℚ) (hs : xs.Sorted (· ≤ ·)) (x : ℚ)
    (hx : x ∈ xs) : x ≤ xs.getD (xs.length - 1) 0 := by
  induction xs with
  | nil => cases hx
  | cons a l ih =>
    cases l with
    | nil =>
      rcases List.mem_cons.mp hx with rfl | h
      · simp [List.getD]
      · cases h
    | cons b t =>
      have hs' : (b :: t).Sorted (· ≤ ·) := (List.sorted_cons.mp hs).2
      have hlast : (a :: b :: t).getD ((a :: b :: t).length - 1) 0
          = (b :: t).getD ((b :: t).length - 1) 0 := by
        simp [List.getD]
      rw [hlast]
      rcases List.mem_cons.mp hx with rfl | hl
      · have hmem : (b :: t).getD ((b :: t).length - 1) 0 ∈ (b :: t) := by
          have : (b :: t).length - 1 < (b :: t).length := by simp
          rw [List.getD_eq_getElem (b :: t) 0 this]
          exact List.getElem_mem this
        exact (List.sorted_cons.mp hs).1 _ hmem
      · exact ih hs' hl

theorem getD_zero_mem (xs : List ℚ) (hne : xs ≠ []) : xs.getD 0 0 ∈ xs := by
  cases xs with
  | nil => exact absurd rfl hne
  | cons a l => simp [List.getD]

theorem getD_last_mem (xs : List ℚ) (hne : xs ≠ []) :
    xs.getD (xs.length - 1) 0 ∈ xs := by
  have hlen : 0 < xs.length := List.length_pos.mpr hne
  have hlt : xs.length - 1 < xs.length := by omega
  rw [List.getD_eq_getElem xs 0 hlt]
  exact List.getElem_mem hlt

/-- A single element list sorts to itself. -/
theorem insertionSort_singleton (y : ℚ) :
    ([y] : List ℚ).insertionSort (· ≤ ·) = [y] := rfl

/-- Any `p` on a singleton returns the element (`k = 0` regardless of `p`). -/
theorem percentile_singleton (y : ℚ) (p : ℚ) : percentile [y] p = y := by
  rw [percentile_eq_interp [y] p (by simp), insertionSort_singleton,
    interpOnSorted_int [y] p 0 (by norm_num)]
  rfl

example : percentile [7] 37 = 7 := percentile_singleton 7 37

theorem insertionSort_1234 :
    (([1, 2, 3, 4] : List ℚ).insertionSort (· ≤ ·)) = [1, 2, 3, 4] := by decide

/-- Evaluation `percentile([1,2,3,4], 50) = 2.5`. -/
theorem percentile_1234_50 : percentile [(1 : ℚ), 2, 3, 4] 50 = 5 / 2 := by
  rw [percentile_eq_interp [(1 : ℚ), 2, 3, 4] 50 (by simp), insertionSort_1234,
    interpOnSorted_frac [(1 : ℚ), 2, 3, 4] 50 (3 / 2) 1 2
      (by show ((4 : ℚ) - 1) * (50 / 100) = 3 / 2; norm_num)
      (rat_floor_eval _ 1 (by norm_num) (by norm_num))
      (rat_ceil_eval _ 2 (by norm_num) (by norm_num))
      (by decide)]
  show (2 : ℚ) + ((3 : ℚ) - 2) * (3 / 2 - ((1 : ℤ) : ℚ)) = 5 / 2
  norm_num

/-- Result `percentile(data, 0)` is the minimum of a non-empty `data`. -/
theorem percentile_zero_min (data : List ℚ) (hne : data ≠ []) :
    percentile data 0 ∈ data ∧ ∀ x ∈ data, percentile data 0 ≤ x := by
  have hperm : List.Perm (data.insertionSort (· ≤ ·)) data := List.perm_insertionSort _ data
  have hxs_ne : data.insertionSort (· ≤ ·) ≠ [] := by
    intro h
    apply hne
    have hl := hperm.length_eq
    rw [h] at hl
    exact List.length_eq_zero.mp hl.symm
  have hsort : (data.insertionSort (· ≤ ·)).Sorted (· ≤ ·) :=
    List.sorted_insertionSort _ data
  have hval : percentile data 0 = (data.insertionSort (· ≤ ·)).getD 0 0 := by
    rw [percentile_eq_interp data 0 hne,
      interpOnSorted_int _ 0 0 (by norm_num)]
    rfl
  constructor
  · rw [hval]
    exact hperm.mem_iff.mp (getD_zero_mem _ hxs_ne)
  · intro x hx
    rw [hval]
    exact sorted_getD_zero_le _ hsort x (hperm.mem_iff.mpr hx)

/-- Result `percentile(data, 100)` is the maximum of a non-empty `data`. -/
theorem percentile_hundred_max (data : List ℚ) (hne : data ≠ []) :
    percentile data 100 ∈ data ∧ ∀ x ∈ data, x ≤ percentile data 100 := by
  have hperm : List.Perm (data.insertionSort (· ≤ ·)) data := List.perm_insertionSort _ data
  have hxs_ne : data.insertionSort (· ≤ ·) ≠ [] := by
    intro h
    apply hne
    have hl := hperm.length_eq
    rw [h] at hl
    exact List.length_eq_zero.mp hl.symm
  have hsort : (data.insertionSort (· ≤ ·)).Sorted (· ≤ ·) :=
    List.sorted_insertionSort _ data
  have hlen1 : 1 ≤ (data.insertionSort (· ≤ ·)).length :=
    List.length_pos.mpr hxs_ne
  have hz : (((data.insertionSort (· ≤ ·)).length : ℚ) - 1) * ((100 : ℚ) / 100)
      = ((((data.insertionSort (· ≤ ·)).length : ℤ) - 1 : ℤ) : ℚ) := by
    push_cast
    ring
  have htn : (((data.insertionSort (· ≤ ·)).length : ℤ) - 1).toNat
      = (data.insertionSort (· ≤ ·)).length - 1 := by omega
  have hval : percentile data 100
      = (data.insertionSort (· ≤ ·)).getD ((data.insertionSort (· ≤ ·)).length - 1) 0 := by
    rw [percentile_eq_interp data 100 hne, interpOnSorted_int _ 100 _ hz, htn]
  constructor
  · rw [hval]
    exact hperm.mem_iff.mp (getD_last_mem _ hxs_ne)
  · intro x hx
    rw [hval]
    exact sorted_le_getD_last _ hsort x (hperm.mem_iff.mpr hx)

/-- C1: for every non-empty sample list and `p ∈ [0,100]`, `percentile` is the
linear-interpolation-between-closest-ranks estimator of the spec's pseudocode
applied to the ascending sort of the samples; in particular `p=50` on
`[1,2,3,4]` yields `2.5`, `p=0` yields the minimum, `p=100` the maximum, and
on any single-element list it returns that element for every `p`. -/
theorem C1_percentile_linear_interpolation (data : List ℚ) (p : ℚ)
    (hne : data ≠ []) (hp0 : 0 ≤ p) (hp1 : p ≤ 100) :
    percentile data p = interpOnSorted (data.insertionSort (· ≤ ·)) p
    ∧ percentile [(1 : ℚ), 2, 3, 4] 50 = 5 / 2
    ∧ (percentile data 0 ∈ data ∧ ∀ x ∈ data, percentile data 0 ≤ x)
    ∧ (percentile data 100 ∈ data ∧ ∀ x ∈ data, x ≤ percentile data 100)
    ∧ (∀ y : ℚ, percentile [y] p = y) :=
  ⟨percentile_eq_interp data p hne, percentile_1234_50,
    percentile_zero_min data hne, percentile_hundred_max data hne,
    fun y => percentile_singleton y p⟩

/-- Witness for C1 at `data = [3,1,2]`, `p = 50`. -/
theorem C1_percentile_linear_interpolation_witness :
    percentile [(3 : ℚ), 1, 2] 50
        = interpOnSorted (([(3 : ℚ), 1, 2]).insertionSort (· ≤ ·)) 50
    ∧ percentile [(1 : ℚ), 2, 3, 4] 50 = 5 / 2
    ∧ (percentile [(3 : ℚ), 1, 2] 0 ∈ [(3 : ℚ), 1, 2]
        ∧ ∀ x ∈ [(3 : ℚ), 1, 2], percentile [(3 : ℚ), 1, 2] 0 ≤ x)
    ∧ (percentile [(3 : ℚ), 1, 2] 100 ∈ [(3 : ℚ), 1, 2]
        ∧ ∀ x ∈ [(3 : ℚ), 1, 2], x ≤ percentile [(3 : ℚ), 1, 2] 100)
    ∧ (∀ y : ℚ, percentile [y] 50 = y) :=
  C1_percentile_linear_interpolation [(3 : ℚ), 1, 2] 50 (by decide) (by decide) (by decide)

/-- C10: on the empty sample list `percentile` returns `0.0` for every `p`
(in particular for every `p ∈ [0,100]`): the implementation is total. -/
theorem C10_percentile_empty (p : ℚ) : percentile [] p = 0 := rfl

/-! ## Resource probe (src/main.py lines 15–36)

`GPU_AVAILABLE` is set once at import: `True` iff `pynvml.nvmlInit()`
succeeded.  It is modelled as an explicit boolean parameter; the NVML
query result (`info.used`, bytes) as a rational parameter. -/

/-- Function `get_vram_usage_mb` (src/main.py lines 30–36): returns `0.0` when no GPU
backend initialized; otherwise device 0's used bytes divided by `1024*1024`. -/
def get_vram_usage_mb (gpuAvailable : Bool) (usedBytes : ℚ) : ℚ :=
  if !gpuAvailable then 0 else usedBytes / (1024 * 1024)

/-! ## `remove_background` (src/main.py lines 52–97)

The body decodes the source with `data = Image.open(src_img_path)`, builds a
session, then runs `img = await remove(image, session=rembg_session)`:
the name `image` is never bound (the decoded image is bound to `data`), and
`await` appears inside a plain `def`.  Name resolution for the argument of
`remove` is therefore modelled explicitly. -/

/-- Opaque decoded image. -/
structure Image where
  id : Nat
deriving DecidableEq, Repr

inductive PyError where
  | nameError (name : String)
  | itemError (msg : String)
deriving DecidableEq, Repr

/-- Local image-typed bindings of `remove_background`'s body at the point of
the `remove(...)` call: only `data` (line 60) is bound. -/
def rbLocals (decoded : Image) : List (String × Image) := [("data", decoded)]

/-- Python name resolution: unbound names raise `NameError`. -/
def lookupName (env : List (String × Image)) (x : String) : Except PyError Image :=
  match env.find? (fun kv => kv.fst = x) with
  | some kv => .ok kv.snd
  | none => .error (.nameError x)

/-- Per-item measurement triple returned by a (successful) item call:
`(elapsed, ram_delta, vram_delta)`. -/
structure Measurement where
  elapsed : ℚ
  ramDelta : ℚ
  vramDelta : ℚ
deriving DecidableEq, Repr

/-- Function `remove_background` (src/main.py lines 52–97): decode the source, resolve
the argument of `remove(...)` (the name `image`), apply the removal model,
and persist under `<stem>.png`.  `decode` and `removeModel` stand for the
external PIL and rembg collaborators; the probe readings and timer are
irrelevant to the error, so the result is the saved path and image. -/
def remove_background (decode : String → Image) (removeModel : Image → Image)
    (srcStem srcExt outputDir : String) : Except PyError (String × Image) := do
  let data := decode (srcStem ++ srcExt)
  let arg ← lookupName (rbLocals data) "image"
  let img := removeModel arg
  let outPath := outputDir ++ "/" ++ srcStem ++ ".png"
  .ok (outPath, img)

/-- The Item Processor as the spec describes it: decode, remove on the
decoded image, save under the stem with the fixed `.png` extension. -/
def itemProcessorSpec (decode : String → Image) (removeModel : Image → Image)
    (srcStem srcExt outputDir : String) : Except PyError (String × Image) :=
  let data := decode (srcStem ++ srcExt)
  let img := removeModel data
  .ok (outputDir ++ "/" ++ srcStem ++ ".png", img)

/-- C2 counterexample evidence: `remove_background` always raises
`NameError: image` before invoking the model or writing output — the decoded
image is bound to `data`, but the call passes the unbound name `image`
(src/main.py line 75; that line's `await` outside an `async def` is moreover
a syntax error, so the module cannot even be imported). -/
theorem C2_remove_background_name_error (decode : String → Image)
    (removeModel : Image → Image) (srcStem srcExt outputDir : String) :
    remove_background decode removeModel srcStem srcExt outputDir
      = .error (.nameError "image") := rfl

/-- C2 claim, stated on the code: the processor returns the removal of the
decoded image persisted under `<stem>.png`.  False at any input. -/
theorem C2_counterexample :
    ¬ (remove_background (fun _ => ⟨0⟩) (fun i => ⟨i.id + 1⟩) "cat" ".jpg" "out"
        = itemProcessorSpec (fun _ => ⟨0⟩) (fun i => ⟨i.id + 1⟩) "cat" ".jpg" "out") := by
  intro h
  have h2 : (Except.error (PyError.nameError "image") : Except PyError (String × Image))
      = Except.ok ("out/cat.png", Image.mk 1) := h
  exact Except.noConfusion h2

/-! ## `process_folder` (src/main.py lines 100–146)

A directory entry is a stem plus a `pathlib` suffix (`""` when the name has
no dot).  The per-item call `remove_background(img_path, output_dir)` is
abstracted as a parameter `proc : FileEntry → Except PyError Measurement`:
its success value depends on the external model, clock and memory probes
(in the actual source every call fails with `NameError`, the `proc` that is
constantly `.error` — see `C2_remove_background_name_error`).  The
iteration order of `input_dir.glob("*")` is the order of `files`. -/

structure FileEntry where
  stem : String
  ext : String
deriving DecidableEq, Repr

/-- Attribute `Path.name`: stem plus suffix. -/
def FileEntry.name (f : FileEntry) : String := f.stem ++ f.ext

/-- The selection allow-list (src/main.py line 112). -/
def imageExts : List String := [".jpg", ".jpeg", ".png", ".webp"]

/-- Python's `str.lower()` (extensions are ASCII, where `Char.toLower`
agrees with it). -/
def strLower (s : String) : String := String.mk (s.data.map Char.toLower)

/-- A file is selected iff `suffix.lower()` is in the allow-list. -/
def selected (f : FileEntry) : Bool := imageExts.contains (strLower f.ext)

/-- Python's `max` on a non-empty list (left fold; `max([])` never occurs
because the summary is guarded by `count > 0`). -/
def pyMax : List ℚ → ℚ
  | [] => 0
  | x :: xs => xs.foldl max x

/-- Accumulators of the scan loop (lines 106–121): the three metric lists,
the success counter, and the error log of `(file name, cause)` prints. -/
structure RunState where
  times : List ℚ
  ramDeltas : List ℚ
  vramDeltas : List ℚ
  count : Nat
  errors : List (String × PyError)
deriving DecidableEq, Repr

def initState : RunState := ⟨[], [], [], 0, []⟩

/-- One iteration of the `for img_path in input_dir.glob("*")` loop. -/
def scanStep (proc : FileEntry → Except PyError Measurement)
    (st : RunState) (f : FileEntry) : RunState :=
  if !(selected f) then st
  else
    match proc f with
    | .ok m =>
        { st with
          times := st.times ++ [m.elapsed]
          ramDeltas := st.ramDeltas ++ [m.ramDelta]
          vramDeltas := st.vramDeltas ++ [m.vramDelta]
          count := st.count + 1 }
    | .error e => { st with errors := st.errors ++ [(f.name, e)] }

/-- The printed summary (lines 123–146).  `vram` is `none` when the block
prints "VRAM stats: unavailable" instead of percentiles (line 139). -/
structure Summary where
  count : Nat
  p95Time : ℚ
  p99Time : ℚ
  maxTime : ℚ
  p95Ram : ℚ
  p99Ram : ℚ
  maxRam : ℚ
  vram : Option (ℚ × ℚ × ℚ)
deriving DecidableEq, Repr

/-- Function `process_folder`: scan every entry, then print the summary only when
`count > 0`; VRAM percentiles/max are computed only under `GPU_AVAILABLE`. -/
def process_folder (gpuAvailable : Bool)
    (proc : FileEntry → Except PyError Measurement)
    (files : List FileEntry) : RunState × Option Summary :=
  let st := files.foldl (scanStep proc) initState
  let summary :=
    if st.count > 0 then
      some
        { count := st.count
          p95Time := percentile st.times 95
          p99Time := percentile st.times 99
          maxTime := pyMax st.times
          p95Ram := percentile st.ramDeltas 95
          p99Ram := percentile st.ramDeltas 99
          maxRam := pyMax st.ramDeltas
          vram :=
            if gpuAvailable then
              some (percentile st.vramDeltas 95, percentile st.vramDeltas 99,
                pyMax st.vramDeltas)
            else none }
    else none
  (st, summary)

/-- The selected files whose processing succeeds, with their measurements. -/
def successes (proc : FileEntry → Except PyError Measurement)
    (files : List FileEntry) : List Measurement :=
  (files.filter selected).filterMap fun f => (proc f).toOption

/-- The selected files whose processing fails, with their causes. -/
def failures (proc : FileEntry → Except PyError Measurement)
    (files : List FileEntry) : List (String × PyError) :=
  (files.filter selected).filterMap fun f =>
    match proc f with
    | .error e => some (f.name, e)
    | .ok _ => none

/-- The scan fold, restarted from an arbitrary state, appends exactly the
successes' metrics, counts exactly the successes, and logs exactly the
failures. -/
theorem foldl_scanStep_characterization
    (proc : FileEntry → Except PyError Measurement) (files : List FileEntry)
    (st : RunState) :
    (files.foldl (scanStep proc) st).times
        = st.times ++ (successes proc files).map (·.elapsed)
    ∧ (files.foldl (scanStep proc) st).ramDeltas
        = st.ramDeltas ++ (successes proc files).map (·.ramDelta)
    ∧ (files.foldl (scanStep proc) st).vramDeltas
        = st.vramDeltas ++ (successes proc files).map (·.vramDelta)
    ∧ (files.foldl (scanStep proc) st).count
        = st.count + (successes proc files).length
    ∧ (files.foldl (scanStep proc) st).errors
        = st.errors ++ failures proc files := by
  induction files generalizing st with
  | nil => simp [successes, failures]
  | cons f rest ih =>
    by_cases hsel : selected f = true
    · cases hp : proc f with
      | ok m =>
        have hstep : scanStep proc st f =
            { st with
              times := st.times ++ [m.elapsed]
              ramDeltas := st.ramDeltas ++ [m.ramDelta]
              vramDeltas := st.vramDeltas ++ [m.vramDelta]
              count := st.count + 1 } := by
          simp [scanStep, hsel, hp]
        have hsucc : successes proc (f :: rest) = m :: successes proc rest := by
          simp [successes, List.filter_cons, hsel, List.filterMap_cons, hp, Except.toOption]
        have hfail : failures proc (f :: rest) = failures proc rest := by
          simp [failures, List.filter_cons, hsel, List.filterMap_cons, hp]
        obtain ⟨h1, h2, h3, h4, h5⟩ := ih (scanStep proc st f)
        refine ⟨?_, ?_, ?_, ?_, ?_⟩
        · rw [List.foldl_cons, h1, hstep, hsucc]; simp
        · rw [List.foldl_cons, h2, hstep, hsucc]; simp
        · rw [List.foldl_cons, h3, hstep, hsucc]; simp
        · rw [List.foldl_cons, h4, hstep, hsucc]; simp; omega
        · rw [List.foldl_cons, h5, hstep, hfail]
      | error e =>
        have hstep : scanStep proc st f =
            { st with errors := st.errors ++ [(f.name, e)] } := by
          simp [scanStep, hsel, hp]
        have hsucc : successes proc (f :: rest) = successes proc rest := by
          simp [successes, List.filter_cons, hsel, List.filterMap_cons, hp, Except.toOption]
        have hfail : failures proc (f :: rest) = (f.name, e) :: failures proc rest := by
          simp [failures, List.filter_cons, hsel, List.filterMap_cons, hp]
        obtain ⟨h1, h2, h3, h4, h5⟩ := ih (scanStep proc st f)
        refine ⟨?_, ?_, ?_, ?_, ?_⟩
        · rw [List.foldl_cons, h1, hstep, hsucc]
        · rw [List.foldl_cons, h2, hstep, hsucc]
        · rw [List.foldl_cons, h3, hstep, hsucc]
        · rw [List.foldl_cons, h4, hstep, hsucc]
        · rw [List.foldl_cons, h5, hstep, hfail]; simp
    · have hsel' : selected f = false := by
        revert hsel
        cases selected f <;> simp
      have hstep : scanStep proc st f = st := by simp [scanStep, hsel']
      have hsucc : successes proc (f :: rest) = successes proc rest := by
        simp [successes, List.filter_cons, hsel']
      have hfail : failures proc (f :: rest) = failures proc rest := by
        simp [failures, List.filter_cons, hsel']
      rw [List.foldl_cons, hstep, hsucc, hfail]
      exact ih st

/-- The scan from the initial state: metrics, count and error log are
exactly those of the successes/failures. -/
theorem scan_characterization (proc : FileEntry → Except PyError Measurement)
    (files : List FileEntry) :
    (List.foldl (scanStep proc) initState files).times
        = (successes proc files).map (·.elapsed)
    ∧ (List.foldl (scanStep proc) initState files).ramDeltas
        = (successes proc files).map (·.ramDelta)
    ∧ (List.foldl (scanStep proc) initState files).vramDeltas
        = (successes proc files).map (·.vramDelta)
    ∧ (List.foldl (scanStep proc) initState files).count
        = (successes proc files).length
    ∧ (List.foldl (scanStep proc) initState files).errors = failures proc files := by
  obtain ⟨ht, hr, hv, hc, he⟩ := foldl_scanStep_characterization proc files initState
  refine ⟨?_, ?_, ?_, ?_, ?_⟩ <;> simp only [ht, hr, hv, hc, he] <;> simp [initState]

/-- Sample batch content: a selected file whose processing fails… -/
def exFail : FileEntry := ⟨"a", ".jpg"⟩

/-- Then a selected file whose processing succeeds. -/
def exOk : FileEntry := ⟨"b", ".jpg"⟩

/-- A processor failing on stem `a` and measuring `(1, 2, 3)` elsewhere. -/
def exProc : FileEntry → Except PyError Measurement := fun f =>
  if f.stem = "a" then .error (.itemError "model failure") else .ok ⟨1, 2, 3⟩

/-- One failing and one succeeding item: the failure is logged by name and
cause, the summary counts and aggregates only the success. -/
theorem process_folder_one_fail_one_success :
    process_folder true exProc [exFail, exOk]
      = ({ times := [1], ramDeltas := [2], vramDeltas := [3], count := 1,
           errors := [("a.jpg", PyError.itemError "model failure")] },
         some { count := 1, p95Time := 1, p99Time := 1, maxTime := 1,
                p95Ram := 2, p99Ram := 2, maxRam := 2, vram := some (3, 3, 3) }) := by
  have hst : List.foldl (scanStep exProc) initState [exFail, exOk]
      = { times := [1], ramDeltas := [2], vramDeltas := [3], count := 1,
          errors := [("a.jpg", PyError.itemError "model failure")] } := by decide
  simp only [process_folder, hst]
  norm_num [percentile_singleton, pyMax]

/-- C3: per-item failures are isolated: the run state lists exactly the
successes' metrics in order, counts exactly the successes, and logs exactly
the failed files' names and causes; the printed summary (when any) is
derived only from the successes; one failure plus one success yields a
summary with `count = 1` aggregating only the success. -/
theorem C3_failure_isolation (gpuAvailable : Bool)
    (proc : FileEntry → Except PyError Measurement) (files : List FileEntry) :
    ((process_folder gpuAvailable proc files).1.count = (successes proc files).length
    ∧ (process_folder gpuAvailable proc files).1.times
        = (successes proc files).map (·.elapsed)
    ∧ (process_folder gpuAvailable proc files).1.ramDeltas
        = (successes proc files).map (·.ramDelta)
    ∧ (process_folder gpuAvailable proc files).1.vramDeltas
        = (successes proc files).map (·.vramDelta)
    ∧ (process_folder gpuAvailable proc files).1.errors = failures proc files)
    ∧ (∀ s, (process_folder gpuAvailable proc files).2 = some s →
        s.count = (successes proc files).length
        ∧ s.p95Time = percentile ((successes proc files).map (·.elapsed)) 95
        ∧ s.p99Time = percentile ((successes proc files).map (·.elapsed)) 99
        ∧ s.maxTime = pyMax ((successes proc files).map (·.elapsed))
        ∧ s.p95Ram = percentile ((successes proc files).map (·.ramDelta)) 95
        ∧ s.p99Ram = percentile ((successes proc files).map (·.ramDelta)) 99
        ∧ s.maxRam = pyMax ((successes proc files).map (·.ramDelta)))
    ∧ process_folder true exProc [exFail, exOk]
      = ({ times := [1], ramDeltas := [2], vramDeltas := [3], count := 1,
           errors := [("a.jpg", PyError.itemError "model failure")] },
         some { count := 1, p95Time := 1, p99Time := 1, maxTime := 1,
                p95Ram := 2, p99Ram := 2, maxRam := 2, vram := some (3, 3, 3) }) := by
  obtain ⟨ht, hr, hv, hc, he⟩ := scan_characterization proc files
  refine ⟨⟨?_, ?_, ?_, ?_, ?_⟩, ?_, process_folder_one_fail_one_success⟩
  · simpa [process_folder] using hc
  · simpa [process_folder] using ht
  · simpa [process_folder] using hr
  · simpa [process_folder] using hv
  · simpa [process_folder] using he
  · intro s hs
    simp only [process_folder] at hs
    by_cases hcnt : (List.foldl (scanStep proc) initState files).count > 0
    · rw [if_pos hcnt, Option.some_inj] at hs
      subst hs
      exact ⟨hc, by rw [ht], by rw [ht], by rw [ht], by rw [hr], by rw [hr], by rw [hr]⟩
    · rw [if_neg hcnt] at hs
      cases hs

/-- Witness for C3 at the one-failure-one-success batch. -/
theorem C3_failure_isolation_witness :
    ((process_folder true exProc [exFail, exOk]).1.count
        = (successes exProc [exFail, exOk]).length
    ∧ (process_folder true exProc [exFail, exOk]).1.times
        = (successes exProc [exFail, exOk]).map (·.elapsed)
    ∧ (process_folder true exProc [exFail, exOk]).1.ramDeltas
        = (successes exProc [exFail, exOk]).map (·.ramDelta)
    ∧ (process_folder true exProc [exFail, exOk]).1.vramDeltas
        = (successes exProc [exFail, exOk]).map (·.vramDelta)
    ∧ (process_folder true exProc [exFail, exOk]).1.errors
        = failures exProc [exFail, exOk])
    ∧ (∀ s, (process_folder true exProc [exFail, exOk]).2 = some s →
        s.count = (successes exProc [exFail, exOk]).length
        ∧ s.p95Time = percentile ((successes exProc [exFail, exOk]).map (·.elapsed)) 95
        ∧ s.p99Time = percentile ((successes exProc [exFail, exOk]).map (·.elapsed)) 99
        ∧ s.maxTime = pyMax ((successes exProc [exFail, exOk]).map (·.elapsed))
        ∧ s.p95Ram = percentile ((successes exProc [exFail, exOk]).map (·.ramDelta)) 95
        ∧ s.p99Ram = percentile ((successes exProc [exFail, exOk]).map (·.ramDelta)) 99
        ∧ s.maxRam = pyMax ((successes exProc [exFail, exOk]).map (·.ramDelta)))
    ∧ process_folder true exProc [exFail, exOk]
      = ({ times := [1], ramDeltas := [2], vramDeltas := [3], count := 1,
           errors := [("a.jpg", PyError.itemError "model failure")] },
         some { count := 1, p95Time := 1, p99Time := 1, maxTime := 1,
                p95Ram := 2, p99Ram := 2, maxRam := 2, vram := some (3, 3, 3) }) :=
  C3_failure_isolation true exProc [exFail, exOk]

/-- C8: when zero items succeeded, no summary is produced: no percentile,
max or count statistic is computed or printed. -/
theorem C8_zero_successes_no_summary (gpuAvailable : Bool)
    (proc : FileEntry → Except PyError Measurement) (files : List FileEntry)
    (hzero : successes proc files = []) :
    (process_folder gpuAvailable proc files).2 = none := by
  obtain ⟨_, _, _, hc, _⟩ := scan_characterization proc files
  rw [hzero] at hc
  simp [process_folder, hc]

/-- Witness for C8: a batch whose only selected file fails. -/
theorem C8_zero_successes_no_summary_witness :
    successes exProc [exFail] = []
    ∧ (process_folder true exProc [exFail]).2 = none :=
  ⟨by decide, C8_zero_successes_no_summary true exProc [exFail] (by decide)⟩

/-- C7: with no GPU backend, `get_vram_usage_mb` is constantly `0` and the
summary carries no VRAM statistics; with the backend available, the summary's
VRAM block is exactly the percentile/max aggregation of the VRAM deltas. -/
theorem C7_vram_gated_on_gpu_availability :
    (∀ usedBytes : ℚ, get_vram_usage_mb false usedBytes = 0)
    ∧ (∀ proc files s, (process_folder false proc files).2 = some s →
        s.vram = none)
    ∧ (∀ proc files s, (process_folder true proc files).2 = some s →
        s.vram = some (percentile (process_folder true proc files).1.vramDeltas 95,
          percentile (process_folder true proc files).1.vramDeltas 99,
          pyMax (process_folder true proc files).1.vramDeltas)) := by
  refine ⟨fun _ => rfl, ?_, ?_⟩
  · intro proc files s hs
    simp only [process_folder] at hs
    by_cases hcnt : (List.foldl (scanStep proc) initState files).count > 0
    · rw [if_pos hcnt, Option.some_inj] at hs
      subst hs
      rfl
    · rw [if_neg hcnt] at hs
      cases hs
  · intro proc files s hs
    simp only [process_folder] at hs ⊢
    by_cases hcnt : (List.foldl (scanStep proc) initState files).count > 0
    · rw [if_pos hcnt, Option.some_inj] at hs
      subst hs
      rfl
    · rw [if_neg hcnt] at hs
      cases hs

/-- Witness for C7 at the one-failure-one-success batch without/with GPU. -/
theorem C7_vram_gated_witness :
    get_vram_usage_mb false 4096 = 0
    ∧ ((process_folder false exProc [exFail, exOk]).2.map (·.vram) = some none)
    ∧ ((process_folder true exProc [exFail, exOk]).2.map (·.vram)
        = some (some (percentile (process_folder true exProc [exFail, exOk]).1.vramDeltas 95,
            percentile (process_folder true exProc [exFail, exOk]).1.vramDeltas 99,
            pyMax (process_folder true exProc [exFail, exOk]).1.vramDeltas))) := by
  obtain ⟨h0, h2, h3⟩ := C7_vram_gated_on_gpu_availability
  refine ⟨h0 4096, ?_, ?_⟩
  · cases hs : (process_folder false exProc [exFail, exOk]).2 with
    | none => exact absurd hs (by decide)
    | some s => simp [h2 exProc [exFail, exOk] s hs]
  · cases hs : (process_folder true exProc [exFail, exOk]).2 with
    | none => exact absurd hs (by decide)
    | some s => simp [h3 exProc [exFail, exOk] s hs]

/-! ## `visualize.py`: asset encoding (lines 10–14)

`base64.b64encode`/`b64decode` are the Python stdlib collaborators; their
contract is RFC 4648 base64, modelled here on byte lists (`Nat < 256`).
`mimetypes.guess_type` is an external collaborator, a parameter
`guessType : String → Option String`. -/

def b64Alphabet : List Char :=
  "ABCDEFGHIJKLMNOPQRSTUVWXYZabcdefghijklmnopqrstuvwxyz0123456789+/".data

def b64Char (n : Nat) : Char := b64Alphabet.getD n 'A'

def b64Index (ch : Char) : Nat := b64Alphabet.findIdx (· = ch)

/-- RFC 4648 encoding of a byte list, three bytes to four characters, with
`=` padding on a final chunk of one or two bytes. -/
def b64EncodeChunks : List Nat → List Char
  | [] => []
  | [b0] => [b64Char (b0 / 4), b64Char (b0 % 4 * 16), '=', '=']
  | [b0, b1] =>
      [b64Char (b0 / 4), b64Char (b0 % 4 * 16 + b1 / 16), b64Char (b1 % 16 * 4), '=']
  | b0 :: b1 :: b2 :: rest =>
      b64Char (b0 / 4) :: b64Char (b0 % 4 * 16 + b1 / 16) ::
      b64Char (b1 % 16 * 4 + b2 / 64) :: b64Char (b2 % 64) :: b64EncodeChunks rest

def b64encode (bs : List Nat) : String := String.mk (b64EncodeChunks bs)

/-- RFC 4648 decoding, four characters to three bytes (fewer on a padded
final chunk).  Junk input decodes to junk; only outputs of the encoder
matter for the round-trip contract. -/
def b64DecodeChunks : List Char → List Nat
  | c0 :: c1 :: c2 :: c3 :: rest =>
      if c2 = '=' then [b64Index c0 * 4 + b64Index c1 / 16]
      else if c3 = '=' then
        [b64Index c0 * 4 + b64Index c1 / 16,
         b64Index c1 % 16 * 16 + b64Index c2 / 4]
      else
        (b64Index c0 * 4 + b64Index c1 / 16) ::
        (b64Index c1 % 16 * 16 + b64Index c2 / 4) ::
        (b64Index c2 % 4 * 64 + b64Index c3) ::
        b64DecodeChunks rest
  | _ => []

def b64decode (s : String) : List Nat := b64DecodeChunks s.data

theorem b64Index_b64Char : ∀ n, n < 64 → b64Index (b64Char n) = n := by decide

theorem b64Char_ne_pad : ∀ n, n < 64 → b64Char n ≠ '=' := by decide

/-- Base64 round-trip on byte lists. -/
theorem b64_roundtrip (bs : List Nat) (h8 : ∀ b ∈ bs, b < 256) :
    b64DecodeChunks (b64EncodeChunks bs) = bs := by
  induction bs using b64EncodeChunks.induct with
  | case1 => rfl
  | case2 b0 =>
    have hb0 : b0 < 256 := h8 b0 (by simp)
    rw [b64EncodeChunks, b64DecodeChunks]
    rw [if_pos rfl]
    rw [b64Index_b64Char _ (by omega), b64Index_b64Char _ (by omega)]
    simp
    omega
  | case3 b0 b1 =>
    have hb0 : b0 < 256 := h8 b0 (by simp)
    have hb1 : b1 < 256 := h8 b1 (by simp)
    rw [b64EncodeChunks, b64DecodeChunks]
    rw [if_neg (b64Char_ne_pad _ (by omega)), if_pos rfl]
    rw [b64Index_b64Char _ (by omega), b64Index_b64Char _ (by omega),
      b64Index_b64Char _ (by omega)]
    simp
    omega
  | case4 b0 b1 b2 rest ih =>
    have hb0 : b0 < 256 := h8 b0 (by simp)
    have hb1 : b1 < 256 := h8 b1 (by simp)
    have hb2 : b2 < 256 := h8 b2 (by simp)
    have hrest : ∀ b ∈ rest, b < 256 := fun b hb => h8 b (by simp [hb])
    rw [b64EncodeChunks, b64DecodeChunks]
    rw [if_neg (b64Char_ne_pad _ (by omega)), if_neg (b64Char_ne_pad _ (by omega))]
    rw [b64Index_b64Char _ (by omega), b64Index_b64Char _ (by omega),
      b64Index_b64Char _ (by omega), b64Index_b64Char _ (by omega)]
    rw [ih hrest]
    have e0 : b0 / 4 * 4 + (b0 % 4 * 16 + b1 / 16) / 16 = b0 := by omega
    have e1 : (b0 % 4 * 16 + b1 / 16) % 16 * 16 + (b1 % 16 * 4 + b2 / 64) / 4 = b1 := by
      omega
    have e2 : (b1 % 16 * 4 + b2 / 64) % 4 * 64 + b2 % 64 = b2 := by omega
    rw [e0, e1, e2]

/-- A file seen by the report generator: `pathlib` stem and suffix, the
`is_file()` flag, and the content bytes (`none` when `read_bytes()`
raises). -/
structure VFile where
  stem : String
  ext : String
  isFile : Bool
  bytes : Option (List Nat)
deriving DecidableEq, Repr

def VFile.name (f : VFile) : String := f.stem ++ f.ext

/-- Function `as_data_url` (src/visualize.py lines 10–14): read the bytes, pick
`force_mime or guess_type(name) or "image/png"`, and format
`data:<mime>;base64,<payload>`. -/
def as_data_url (f : VFile) (forceMime : Option String)
    (guessType : String → Option String) : Except PyError String :=
  match f.bytes with
  | none => .error (.itemError ("unreadable: " ++ f.name))
  | some data =>
      let mime := forceMime.getD ((guessType f.name).getD "image/png")
      .ok ("data:" ++ mime ++ ";base64," ++ b64encode data)

/-- C6: the encoder emits `data:<mime>;base64,<payload>` with the MIME type
guessed from the name for originals (`force_mime = none`) and fixed to
`image/png` for processed files, and base64-decoding the payload restores
the file's bytes exactly. -/
theorem C6_data_url_format_and_roundtrip (f : VFile)
    (guessType : String → Option String) (data : List Nat)
    (hb : f.bytes = some data) (h8 : ∀ b ∈ data, b < 256) :
    as_data_url f none guessType
        = .ok ("data:" ++ ((guessType f.name).getD "image/png") ++ ";base64,"
            ++ b64encode data)
    ∧ as_data_url f (some "image/png") guessType
        = .ok ("data:image/png;base64," ++ b64encode data)
    ∧ b64decode (b64encode data) = data := by
  refine ⟨?_, ?_, b64_roundtrip data h8⟩ <;> simp [as_data_url, hb, Option.getD]

/-- Witness for C6 on the bytes of `"Man"` (payload `TWFu`). -/
theorem C6_data_url_witness :
    as_data_url ⟨"img", ".jpg", true, some [77, 97, 110]⟩ none (fun _ => some "image/jpeg")
        = .ok ("data:" ++ (((fun _ => some "image/jpeg") ("img" ++ ".jpg")).getD "image/png")
            ++ ";base64," ++ b64encode [77, 97, 110])
    ∧ as_data_url ⟨"img", ".jpg", true, some [77, 97, 110]⟩ (some "image/png")
          (fun _ => some "image/jpeg")
        = .ok ("data:image/png;base64," ++ b64encode [77, 97, 110])
    ∧ b64decode (b64encode [77, 97, 110]) = [77, 97, 110] := by
  have h := C6_data_url_format_and_roundtrip ⟨"img", ".jpg", true, some [77, 97, 110]⟩
    (fun _ => some "image/jpeg") [77, 97, 110] rfl (by decide)
  simpa [VFile.name] using h

example : b64encode [77, 97, 110] = "TWFu" := by decide

/-! ## `visualize.py`: pair matching and report assembly (lines 16–152) -/

/-- Source-extension allow-list (src/visualize.py line 8). -/
def IMG_EXTS : List String :=
  [".jpg", ".jpeg", ".png", ".webp", ".bmp", ".tif", ".tiff"]

/-- Membership in the originals dict: `p.is_file()` and
`p.suffix.lower() in IMG_EXTS` (line 23–24). -/
def origSelect (f : VFile) : Bool := f.isFile && IMG_EXTS.contains (strLower f.ext)

/-- Membership in the processed dict: `p.is_file()` and
`p.suffix.lower() == ".png"` (line 27–28). -/
def procSelect (f : VFile) : Bool := f.isFile && (strLower f.ext == ".png")

/-- The stems of the selected files (the dict's key set). -/
def stems (sel : VFile → Bool) (files : List VFile) : List String :=
  (files.filter sel).map (·.stem)

/-- Lookup in `{p.stem: p for p in …}`: on duplicate stems the later entry
wins, hence `find?` over the reversed selection. -/
def dictLookup (sel : VFile → Bool) (files : List VFile) (k : String) : Option VFile :=
  ((files.filter sel).reverse).find? (fun f => f.stem == k)

/-- Assignment `keys = sorted(set(originals) & set(processed))` (line 31). -/
def matchedKeys (orig proc : List VFile) : List String :=
  (((stems origSelect orig).dedup).filter
    (fun s => (stems procSelect proc).contains s)).insertionSort (· ≤ ·)

theorem mem_matchedKeys (orig proc : List VFile) (s : String) :
    s ∈ matchedKeys orig proc
      ↔ s ∈ stems origSelect orig ∧ s ∈ stems procSelect proc := by
  unfold matchedKeys
  rw [(List.perm_insertionSort _ _).mem_iff]
  simp [List.mem_filter, List.mem_dedup]

/-- One two-column visual block of the report (lines 47–60): the two data
URLs and the two filename captions. -/
structure ReportRow where
  origUrl : String
  procUrl : String
  origName : String
  procName : String
deriving DecidableEq, Repr

/-- The body of the `for k in keys` loop (lines 37–60): look both files up,
encode the original (guessed MIME) then the processed one (forced
`image/png`); any read failure skips the pair.  The lookup cannot fail for
`k ∈ matchedKeys` (the dicts contain every matched stem). -/
def renderPair (orig proc : List VFile) (guessType : String → Option String)
    (k : String) : Option ReportRow :=
  match dictLookup origSelect orig k, dictLookup procSelect proc k with
  | some o, some p =>
      match as_data_url o none guessType with
      | .error _ => none
      | .ok oUrl =>
          match as_data_url p (some "image/png") guessType with
          | .error _ => none
          | .ok pUrl => some ⟨oUrl, pUrl, o.name, p.name⟩
  | _, _ => none

/-- Both files of the matched pair are present and their bytes readable. -/
def pairReadable (orig proc : List VFile) (k : String) : Bool :=
  match dictLookup origSelect orig k, dictLookup procSelect proc k with
  | some o, some p => o.bytes.isSome && p.bytes.isSome
  | _, _ => false

/-- Outcome of `main(orig_dir, proc_dir, out_html)`:  the exit code, the
written document (its blocks and the `Пар: N` meta count) or `none` when no
file is written, the final `(пар: N)` print, and the per-pair warnings. -/
structure MainOutcome where
  exitCode : Nat
  html : Option (List ReportRow × Nat)
  printedPairs : Option Nat
  warnings : List String
deriving DecidableEq, Repr

/-- Function `main` (src/visualize.py lines 16–152): match, bail out with exit code 1
when no stem matches, otherwise render every readable pair and write one
document whose meta count and final print are `len(rows_html)`. -/
def visualize_main (orig proc : List VFile)
    (guessType : String → Option String) : MainOutcome :=
  let keys := matchedKeys orig proc
  if keys.isEmpty then
    { exitCode := 1, html := none, printedPairs := none, warnings := [] }
  else
    let rows := keys.filterMap (renderPair orig proc guessType)
    { exitCode := 0
      html := some (rows, rows.length)
      printedPairs := some rows.length
      warnings := keys.filter fun k => (renderPair orig proc guessType k).isNone }

/-- Originals directory of the spec's matching example. -/
def exOrig : List VFile :=
  [⟨"a", ".jpg", true, none⟩, ⟨"b", ".png", true, none⟩, ⟨"c", ".jpg", true, none⟩]

/-- Processed directory of the spec's matching example. -/
def exProcd : List VFile :=
  [⟨"a", ".png", true, none⟩, ⟨"b", ".png", true, none⟩, ⟨"d", ".png", true, none⟩]

/-- Concrete string comparisons (`String.ltb` does not reduce; the
list-of-chars order does). -/
theorem str_le_eval (a b : String) (h : a.toList ≤ b.toList) : a ≤ b :=
  String.le_iff_toList_le.mpr h

theorem matchedKeys_example : matchedKeys exOrig exProcd = ["a", "b"] := by
  have hfd : (((stems origSelect exOrig).dedup).filter
      (fun s => (stems procSelect exProcd).contains s)) = ["a", "b"] := by decide
  unfold matchedKeys
  rw [hfd]
  have hab : ("a" : String) ≤ "b" := str_le_eval _ _ (by decide)
  simp [List.insertionSort, List.orderedInsert, hab]

/-- C4: the matched key set is exactly the sorted, duplicate-free
intersection of the allow-listed originals' stems with the `.png` processed
stems; on `{a.jpg, b.png, c.jpg}` × `{a.png, b.png, d.png}` it is `[a, b]`. -/
theorem C4_pair_matcher_intersection (orig proc : List VFile) :
    (∀ s, s ∈ matchedKeys orig proc
        ↔ s ∈ stems origSelect orig ∧ s ∈ stems procSelect proc)
    ∧ (matchedKeys orig proc).Sorted (· ≤ ·)
    ∧ (matchedKeys orig proc).Nodup
    ∧ matchedKeys exOrig exProcd = ["a", "b"] := by
  refine ⟨mem_matchedKeys orig proc, List.sorted_insertionSort _ _, ?_, matchedKeys_example⟩
  exact ((List.nodup_dedup _).filter _).perm (List.perm_insertionSort _ _).symm

/-- C5: if no stem of an allow-listed original matches a stem of a `.png`
processed file, the tool prints an error and exits with code 1, writing no
HTML document at all. -/
theorem C5_empty_intersection_no_report (orig proc : List VFile)
    (guessType : String → Option String)
    (hempty : ∀ s ∈ stems origSelect orig, s ∉ stems procSelect proc) :
    visualize_main orig proc guessType
      = { exitCode := 1, html := none, printedPairs := none, warnings := [] } := by
  have hkeys : matchedKeys orig proc = [] := by
    apply List.eq_nil_iff_forall_not_mem.mpr
    intro s hs
    obtain ⟨h1, h2⟩ := (mem_matchedKeys orig proc s).mp hs
    exact hempty s h1 h2
  simp [visualize_main, hkeys]

/-- Witness for C5: disjoint stems `a` vs `b`. -/
theorem C5_empty_intersection_witness :
    (∀ s ∈ stems origSelect [⟨"a", ".jpg", true, none⟩],
        s ∉ stems procSelect [⟨"b", ".png", true, none⟩])
    ∧ visualize_main [⟨"a", ".jpg", true, none⟩] [⟨"b", ".png", true, none⟩]
        (fun _ => none)
      = { exitCode := 1, html := none, printedPairs := none, warnings := [] } :=
  ⟨by decide,
    C5_empty_intersection_no_report [⟨"a", ".jpg", true, none⟩]
      [⟨"b", ".png", true, none⟩] (fun _ => none) (by decide)⟩

theorem renderPair_isSome_iff (orig proc : List VFile)
    (guessType : String → Option String) (k : String) :
    (renderPair orig proc guessType k).isSome = pairReadable orig proc k := by
  unfold renderPair pairReadable
  cases dictLookup origSelect orig k with
  | none => rfl
  | some o =>
    cases dictLookup procSelect proc k with
    | none => rfl
    | some p =>
      cases hob : o.bytes with
      | none => simp [as_data_url, hob]
      | some od =>
        cases hpb : p.bytes with
        | none => simp [as_data_url, hob, hpb]
        | some pd => simp [as_data_url, hob, hpb]

theorem length_filterMap_eq_length_filter {α β : Type} (l : List α)
    (f : α → Option β) (g : α → Bool) (hfg : ∀ a, (f a).isSome = g a) :
    (l.filterMap f).length = (l.filter g).length := by
  induction l with
  | nil => rfl
  | cons a t ih =>
    have ha := hfg a
    cases hfa : f a with
    | none =>
      rw [hfa] at ha
      simp [List.filterMap_cons, List.filter_cons, hfa, ← ha, ih]
    | some b =>
      rw [hfa] at ha
      simp [List.filterMap_cons, List.filter_cons, hfa, ← ha, ih]

/-- Originals directory with three readable files. -/
def exOrigR : List VFile :=
  [⟨"a", ".jpg", true, some [1]⟩, ⟨"b", ".png", true, some [2]⟩,
   ⟨"c", ".jpg", true, some [3]⟩]

/-- Processed directory where pair `b` is unreadable. -/
def exProcR : List VFile :=
  [⟨"a", ".png", true, some [4]⟩, ⟨"b", ".png", true, none⟩,
   ⟨"c", ".png", true, some [5]⟩]

theorem matchedKeys_exR : matchedKeys exOrigR exProcR = ["a", "b", "c"] := by
  have hfd : (((stems origSelect exOrigR).dedup).filter
      (fun s => (stems procSelect exProcR).contains s)) = ["a", "b", "c"] := by decide
  unfold matchedKeys
  rw [hfd]
  have hab : ("a" : String) ≤ "b" := str_le_eval _ _ (by decide)
  have hbc : ("b" : String) ≤ "c" := str_le_eval _ _ (by decide)
  simp [List.insertionSort, List.orderedInsert, hab, hbc]
  decide

/-- C9: an unreadable pair is warned about and skipped while assembly
continues: the document holds one block per readable pair (in matched key
order), the meta count and the final print both equal the number of blocks,
and the warnings list the unreadable pairs; with readable pairs `a`, `c`
and unreadable `b`, two blocks are emitted and `b` is warned. -/
theorem C9_unreadable_pair_skipped (orig proc : List VFile)
    (guessType : String → Option String) (hne : matchedKeys orig proc ≠ []) :
    (visualize_main orig proc guessType).html
        = some ((matchedKeys orig proc).filterMap (renderPair orig proc guessType),
            ((matchedKeys orig proc).filter (pairReadable orig proc)).length)
    ∧ (visualize_main orig proc guessType).printedPairs
        = some ((matchedKeys orig proc).filter (pairReadable orig proc)).length
    ∧ ((matchedKeys orig proc).filterMap (renderPair orig proc guessType)).length
        = ((matchedKeys orig proc).filter (pairReadable orig proc)).length
    ∧ (visualize_main orig proc guessType).warnings
        = (matchedKeys orig proc).filter (fun k => !(pairReadable orig proc k))
    ∧ (visualize_main exOrigR exProcR (fun _ => none)).printedPairs = some 2
    ∧ (visualize_main exOrigR exProcR (fun _ => none)).warnings = ["b"] := by
  have hF : (matchedKeys orig proc).isEmpty = false := by
    cases h : matchedKeys orig proc with
    | nil => exact absurd h hne
    | cons a t => rfl
  have hlen : ((matchedKeys orig proc).filterMap (renderPair orig proc guessType)).length
      = ((matchedKeys orig proc).filter (pairReadable orig proc)).length :=
    length_filterMap_eq_length_filter _ _ _ (renderPair_isSome_iff orig proc guessType)
  have hwarn : (matchedKeys orig proc).filter
        (fun k => (renderPair orig proc guessType k).isNone)
      = (matchedKeys orig proc).filter (fun k => !(pairReadable orig proc k)) := by
    apply List.filter_congr
    intro k _
    have h := renderPair_isSome_iff orig proc guessType k
    cases hr : renderPair orig proc guessType k <;> rw [hr] at h <;> simp [← h]
  have hcond : ¬((matchedKeys orig proc).isEmpty = true) := by simp [hF]
  have hexF : ¬((matchedKeys exOrigR exProcR).isEmpty = true) := by
    rw [matchedKeys_exR]
    simp
  refine ⟨?_, ?_, hlen, ?_, ?_, ?_⟩
  · simp only [visualize_main]
    rw [if_neg hcond, hlen]
  · simp only [visualize_main]
    rw [if_neg hcond, hlen]
  · simp only [visualize_main]
    rw [if_neg hcond, hwarn]
  · simp only [visualize_main]
    rw [if_neg hexF, matchedKeys_exR]
    decide
  · simp only [visualize_main]
    rw [if_neg hexF, matchedKeys_exR]
    decide

/-- Witness for C9 at the two-readable-one-unreadable example. -/
theorem C9_unreadable_pair_skipped_witness :
    (visualize_main exOrigR exProcR (fun _ => none)).html
        = some ((matchedKeys exOrigR exProcR).filterMap
              (renderPair exOrigR exProcR (fun _ => none)),
            ((matchedKeys exOrigR exProcR).filter (pairReadable exOrigR exProcR)).length)
    ∧ (visualize_main exOrigR exProcR (fun _ => none)).printedPairs
        = some ((matchedKeys exOrigR exProcR).filter (pairReadable exOrigR exProcR)).length
    ∧ ((matchedKeys exOrigR exProcR).filterMap
          (renderPair exOrigR exProcR (fun _ => none))).length
        = ((matchedKeys exOrigR exProcR).filter (pairReadable exOrigR exProcR)).length
    ∧ (visualize_main exOrigR exProcR (fun _ => none)).warnings
        = (matchedKeys exOrigR exProcR).filter
            (fun k => !(pairReadable exOrigR exProcR k))
    ∧ (visualize_main exOrigR exProcR (fun _ => none)).printedPairs = some 2
    ∧ (visualize_main exOrigR exProcR (fun _ => none)).warnings = ["b"] :=
  C9_unreadable_pair_skipped exOrigR exProcR (fun _ => none)
    (by rw [matchedKeys_exR]; decide)

end RemBG
